import Mathlib

/-
Verification of the mcp-router specification against a shallow embedding of
its TypeScript sources.

Each definition in this file is translated from a named function of the
repository (the source file and function are stated in its doc comment).
Strings of the program are modelled by Lean `String` (or `List Char` where
character-level slicing matters), integer-millisecond timestamps by `Nat`,
and SQLite tables by lists of row structures in table order.  Definitions
written from the specification text instead of the source are explicitly
marked as such.
-/

set_option autoImplicit false

namespace MCPRouter

/-! ## Tool preferences (server-tools-repository.ts / tool-filter-service.ts)

A row of the `server_tools` table.  The `created_at` / `updated_at`
timestamp columns are omitted: none of the modelled operations reads them
(the repository only overwrites them with the current time). -/

structure ServerTool where
  id : String
  serverId : String
  toolName : String
  clientId : Option String
  enabled : Bool
  originalDescription : Option String
  customName : Option String
  customDescription : Option String
deriving DecidableEq, Repr

/-- JavaScript truthiness of an optional string parameter: `undefined` /
`null` and the empty string are falsy.  Mirrors `if (clientId)` checks in
the repository. -/
def jsTruthy : Option String → Bool
  | none => false
  | some s => s ≠ ""

/-- Row predicate for the SQL query
`WHERE server_id = ? AND tool_name = ? AND client_id = ?`
(SQL equality with a non-NULL value never matches a NULL column). -/
def matchesClientRow (sid tn : String) (cid : Option String) (r : ServerTool) : Bool :=
  r.serverId == sid && r.toolName == tn && r.clientId == cid && r.clientId.isSome

/-- Row predicate for the SQL query
`WHERE server_id = ? AND tool_name = ? AND client_id IS NULL`. -/
def matchesGlobalRow (sid tn : String) (r : ServerTool) : Bool :=
  r.serverId == sid && r.toolName == tn && r.clientId == none

/-- Source `ServerToolsRepository.getServerTool`
(server-tools-repository.ts, lines 88-120): with a truthy clientId, first
look for the client-specific row, falling back to the global row; otherwise
only the global row. -/
def getServerTool (db : List ServerTool) (sid tn : String) (cid : Option String) :
    Option ServerTool :=
  if jsTruthy cid then
    match db.find? (matchesClientRow sid tn cid) with
    | some row => some row
    | none => db.find? (matchesGlobalRow sid tn)
  else
    db.find? (matchesGlobalRow sid tn)

/-- Cache key built by `ToolFilterService` (tool-filter-service.ts line 71):
the string `serverId:clientId` with falsy clientId replaced by `global`. -/
def cacheKey (sid : String) (cid : Option String) : String :=
  sid ++ ":" ++ (match cid with
    | some c => if c ≠ "" then c else "global"
    | none => "global")

/-- The service's in-memory preference cache, flattened to an association
list from (cache key, tool name) to the cached row. -/
def ToolCache := List ((String × String) × ServerTool)

/-- Source `ToolFilterService.getToolPreference` (tool-filter-service.ts, lines
64-97): consult the per-(server, client) cache first, then the repository.
The write-back of a found preference into the cache mutates only the cache
and is irrelevant to the returned value, so this model returns the
preference only. -/
def getToolPreference (cache : ToolCache) (db : List ServerTool)
    (sid tn : String) (cid : Option String) : Option ServerTool :=
  match cache.find? (fun e => e.1 == (cacheKey sid cid, tn)) with
  | some e => some e.2
  | none => getServerTool db sid tn cid

/-- Source `ToolFilterService.isToolEnabled` (tool-filter-service.ts, lines
105-112): the resolved preference's flag, defaulting to enabled. -/
def isToolEnabled (cache : ToolCache) (db : List ServerTool)
    (sid tn : String) (cid : Option String) : Bool :=
  match getToolPreference cache db sid tn cid with
  | some p => p.enabled
  | none => true

/-- Modelled from the spec: the resolution rule of section 4.D — "a query
for (server, tool, client) returns the client-specific row if present, else
the global row, else an implicit enabled=true default."  Written from the
spec's words, to be compared with `getServerTool` from the source. -/
def specResolve (db : List ServerTool) (sid tn : String) (cid : Option String) :
    Option ServerTool :=
  match cid with
  | some c =>
    match db.find? (fun r => r.serverId == sid && r.toolName == tn && r.clientId == some c) with
    | some row => some row
    | none => db.find? (matchesGlobalRow sid tn)
  | none => db.find? (matchesGlobalRow sid tn)

/-- Modelled from the spec: enabled flag of the resolved preference with the
implicit `enabled = true` default. -/
def specToolEnabled (db : List ServerTool) (sid tn : String) (cid : Option String) : Bool :=
  match specResolve db sid tn cid with
  | some p => p.enabled
  | none => true

/-- Stored rows never carry an empty-string clientId: rows are inserted with
`preference.clientId || null`, which maps the empty string to NULL. -/
def WfToolDB (db : List ServerTool) : Prop :=
  ∀ r ∈ db, r.clientId ≠ some ""

/-- Source `ServerToolsRepository.enableAllTools` (server-tools-repository.ts,
lines 324-332): `UPDATE server_tools SET enabled = 1 WHERE server_id = ?`.
The update filters on the server id only — it has no clientId parameter. -/
def enableAllTools (sid : String) (db : List ServerTool) : List ServerTool :=
  db.map (fun r => if r.serverId == sid then { r with enabled := true } else r)

/-- Source `ServerToolsRepository.disableAllTools` (server-tools-repository.ts,
lines 337-345): `UPDATE server_tools SET enabled = 0 WHERE server_id = ?`. -/
def disableAllTools (sid : String) (db : List ServerTool) : List ServerTool :=
  db.map (fun r => if r.serverId == sid then { r with enabled := false } else r)

/-- Source `ServerToolsRepository.deleteServerToolPreferences` (lines 271-278),
called by `ToolFilterService.resetToolPreferences`:
`DELETE FROM server_tools WHERE server_id = ?`. -/
def deleteServerToolPreferences (sid : String) (db : List ServerTool) : List ServerTool :=
  db.filter (fun r => r.serverId != sid)

/-! ## Symbolic AES-256-GCM model (oauth-encryption.ts)

Sensitive string values handled by the OAuth layer are modelled
symbolically: a value is either a plaintext string or a ciphertext produced
under a key.  The random IV of `encryptOAuthData` is abstracted away; GCM
authentication is modelled by `decryptOAuthData` failing on any value that
is not a ciphertext under the presented key (with real AES-GCM, decrypting
a non-ciphertext fails the tag check with overwhelming probability). -/

inductive SVal where
  | plain (s : String)
  | cipher (key : Nat) (payload : SVal)
deriving DecidableEq, Repr

/-- JavaScript truthiness of an optional `SVal`: `undefined` / `null` and
the empty string are falsy, every other value (including any ciphertext,
which is a non-empty base64 string) is truthy. -/
def svTruthy : Option SVal → Bool
  | none => false
  | some (.plain s) => s ≠ ""
  | some (.cipher _ _) => true

/-- Source `encryptOAuthData` (oauth-encryption.ts, lines 56-81): the empty string
encrypts to itself (`if (!plaintext) return ""`), everything else becomes a
ciphertext under the key read from the key file. -/
def encryptOAuthData (key : Nat) (v : SVal) : SVal :=
  if v = .plain "" then .plain "" else .cipher key v

/-- Source `decryptOAuthData` (oauth-encryption.ts, lines 88-113): the empty
string decrypts to itself; a ciphertext under the same key yields its
payload; anything else throws (`Failed to decrypt OAuth data`). -/
def decryptOAuthData (key : Nat) : SVal → Except Unit SVal
  | .plain s => if s = "" then .ok (.plain "") else .error ()
  | .cipher k p => if k = key then .ok p else .error ()

/-! ## OAuth repository rows (part_001, ServerOAuthRepository)

Only the columns read or written by the modelled operations are kept.
`scopes`, the endpoint columns and the timestamp columns are omitted: the
backup and rotation services copy them through unchanged via object
spread.  Both `server_oauth_configs` and `server_oauth_tokens` declare
`server_id` UNIQUE, so `INSERT OR REPLACE` replaces the row with the same
server id. -/

structure OAuthConfigRec where
  id : String
  serverId : String
  clientId : String
  clientSecret : Option SVal
deriving DecidableEq, Repr

structure OAuthTokenRec where
  id : String
  serverId : String
  accessToken : SVal
  refreshToken : Option SVal
  idToken : Option SVal
  tokenType : String
  expiresAt : Option Nat
  refreshCount : Nat
deriving DecidableEq, Repr

/-- Source `encryptOAuthConfig` (oauth-encryption.ts, lines 161-179): encrypt each
truthy sensitive field, leave falsy fields untouched. -/
def encryptOAuthConfig (key : Nat) (c : OAuthConfigRec) : OAuthConfigRec :=
  { c with clientSecret :=
      if svTruthy c.clientSecret then c.clientSecret.map (encryptOAuthData key)
      else c.clientSecret }

/-- Source `decryptOAuthConfig` (oauth-encryption.ts, lines 184-207): decrypt each
truthy sensitive field; a field whose decryption fails keeps its stored
value (the catch swallows the error). -/
def decryptOAuthConfig (key : Nat) (c : OAuthConfigRec) : OAuthConfigRec :=
  { c with clientSecret :=
      if svTruthy c.clientSecret then
        c.clientSecret.map (fun v =>
          match decryptOAuthData key v with
          | .ok p => p
          | .error _ => v)
      else c.clientSecret }

/-- Source `ServerOAuthRepository.mapRowToToken` (part_001, lines 435-457): the
repository decrypts the token columns when reading a row; a failing column
decryption propagates as an exception. -/
def mapRowToToken (key : Nat) (row : OAuthTokenRec) : Except Unit OAuthTokenRec := do
  let a ← decryptOAuthData key row.accessToken
  let rt ← match row.refreshToken with
    | some v => if svTruthy (some v) then (decryptOAuthData key v).map some else pure none
    | none => pure none
  let it ← match row.idToken with
    | some v => if svTruthy (some v) then (decryptOAuthData key v).map some else pure none
    | none => pure none
  pure { row with accessToken := a, refreshToken := rt, idToken := it }

/-- Source `ServerOAuthRepository.getAllTokens` (part_001, lines 299-306): read
and decrypt every token row. -/
def getAllTokens (key : Nat) (rows : List OAuthTokenRec) :
    Except Unit (List OAuthTokenRec) :=
  rows.mapM (mapRowToToken key)

/-- Source `ServerOAuthRepository.getAllConfigs` (part_001, lines 177-184),
composed with `mapRowToConfig`: decrypt each config with the
error-swallowing `decryptOAuthConfig`. -/
def getAllConfigs (key : Nat) (rows : List OAuthConfigRec) : List OAuthConfigRec :=
  rows.map (decryptOAuthConfig key)

/-- Source `ServerOAuthRepository.saveToken` (part_001, lines 193-241): encrypt
the truthy sensitive fields and `INSERT OR REPLACE` keyed by the unique
server id.  The replacement row is appended where the replaced row stood
(or at the end for a fresh server id); `refresh_count` is written as
`token.refreshCount || 0`. -/
def saveToken (key : Nat) (t : OAuthTokenRec) (rows : List OAuthTokenRec) :
    List OAuthTokenRec :=
  let enc : OAuthTokenRec :=
    { t with
      accessToken := encryptOAuthData key t.accessToken
      refreshToken :=
        if svTruthy t.refreshToken then t.refreshToken.map (encryptOAuthData key) else none
      idToken :=
        if svTruthy t.idToken then t.idToken.map (encryptOAuthData key) else none }
  if rows.any (fun r => r.serverId == t.serverId) then
    rows.map (fun r => if r.serverId == t.serverId then enc else r)
  else
    rows ++ [enc]

/-- Source `ServerOAuthRepository.saveConfig` (part_001, lines 82-132): encrypt
the sensitive fields and `INSERT OR REPLACE` keyed by the unique server id. -/
def saveConfig (key : Nat) (c : OAuthConfigRec) (rows : List OAuthConfigRec) :
    List OAuthConfigRec :=
  let enc := encryptOAuthConfig key c
  if rows.any (fun r => r.serverId == c.serverId) then
    rows.map (fun r => if r.serverId == c.serverId then enc else r)
  else
    rows ++ [enc]

/-! ## OAuth governance state (oauth-security.ts / token-handler.ts) -/

/-- Source `KeyRotationConfig` (oauth-security.ts, lines 19-24). -/
structure KeyRotationConfig where
  rotationIntervalDays : Nat
  keyVersion : Nat
  lastRotation : Nat
  nextRotation : Nat
deriving DecidableEq, Repr

/-- The persistent OAuth state the governance services operate on: the
`.oauth-key` file (32 random bytes, modelled as a `Nat`), the two
encrypted tables, and the key-rotation metadata of `oauth-keys.json`. -/
structure OAuthStore where
  keyFile : Option Nat
  configs : List OAuthConfigRec
  tokens : List OAuthTokenRec
  rotation : KeyRotationConfig
deriving DecidableEq, Repr

/-- Source `getEncryptionKey` (part_004, lines 22-49): read the persisted key, or
create and persist a fresh one (`freshKey`) when the file is missing. -/
def getEncryptionKey (freshKey : Nat) (st : OAuthStore) : Nat × OAuthStore :=
  match st.keyFile with
  | some k => (k, st)
  | none => (freshKey, { st with keyFile := some freshKey })

/-- Source `OAuthSecurityService.rotateEncryptionKeys` (oauth-security.ts, lines
170-242).  `newKey` stands for the `crypto.randomBytes(32)` value the
source generates; the source never persists it, and every
`new EncryptionUtil()` re-reads the key file via `getEncryptionKey`.  The
repository's `getAllTokens` already decrypts the token columns, and the
loop decrypts each access token again.  Any exception is caught: the
function then returns with the store unchanged (only an error audit event
is written). -/
def rotateEncryptionKeys (newKey freshKey : Nat) (now : Nat) (st : OAuthStore) :
    OAuthStore :=
  let (key, st0) := getEncryptionKey freshKey st
  let body : Except Unit (List OAuthTokenRec) := do
    let allTokens ← getAllTokens key st0.tokens
    allTokens.foldlM (fun rows token => do
      if svTruthy (some token.accessToken) then
        let decrypted ← decryptOAuthData key token.accessToken
        let reEncrypted := encryptOAuthData key decrypted
        let rt ← match token.refreshToken with
          | some v =>
            if svTruthy (some v) then
              (decryptOAuthData key v).map (fun p => some (encryptOAuthData key p))
            else pure none
          | none => pure none
        pure (saveToken key { token with accessToken := reEncrypted, refreshToken := rt } rows)
      else
        pure rows) st0.tokens
  match body with
  | .ok rows =>
    { st0 with
      tokens := rows
      rotation :=
        { st0.rotation with
          keyVersion := st0.rotation.keyVersion + 1
          lastRotation := now
          nextRotation := now + st0.rotation.rotationIntervalDays * 24 * 60 * 60 * 1000 } }
  | .error _ => st0

/-! ## OAuth backup (token-handler.ts, OAuthBackupService) -/

/-- Source `BackupOptions` (token-handler.ts, lines 128-133). -/
structure BackupOptions where
  includeTokens : Bool
  encrypt : Bool
  password : Option String
  outputPath : Option String
deriving DecidableEq, Repr

/-- The `{ configs, tokens, encrypted }` payload serialised into a backup
file.  The metadata block (version, machine id, counts, checksum) carries
no secret material and is omitted. -/
structure OAuthBackupData where
  configs : List OAuthConfigRec
  tokens : List OAuthTokenRec
  encrypted : Bool
deriving DecidableEq, Repr

/-- What `createBackup` writes to the output file: either the backup JSON
verbatim, or the passphrase-encrypted blob produced by `encryptBackup`. -/
inductive BackupFile where
  | plainJson (b : OAuthBackupData)
  | encryptedBlob (passphrase : String) (b : OAuthBackupData)
deriving DecidableEq, Repr

/-- JavaScript truthiness of the optional password string. -/
def pwTruthy : Option String → Bool
  | none => false
  | some s => s ≠ ""

/-- Source `OAuthBackupService.createBackup` (token-handler.ts, lines 282-384),
up to the file write.  Configs come decrypted from `getAllConfigs`; with
`encrypt: true` their client secret is kept, otherwise stripped.  Tokens
come decrypted from `getAllTokens`, and with `encrypt: true` each access
and refresh token is decrypted a second time; with `encrypt: false` the
access token is replaced by the literal `[REDACTED]`.  The resulting JSON
is passphrase-encrypted only when both `encrypt` and a truthy `password`
are supplied; otherwise it is written as is.
`createAutomaticBackup` (lines 255-277) calls this with
`includeTokens: true, encrypt: true` and a fixed output path but no
password. -/
def createBackup (freshKey : Nat) (st : OAuthStore) (opts : BackupOptions) :
    Except Unit BackupFile := do
  let (key, st0) := getEncryptionKey freshKey st
  let configs := getAllConfigs key st0.configs
  let tokens ← if opts.includeTokens then getAllTokens key st0.tokens else pure []
  let bConfigs := configs.map (fun c =>
    { c with clientSecret := if opts.encrypt then c.clientSecret else none })
  let bTokens ← tokens.mapM (fun t => do
    let a ← if opts.encrypt then decryptOAuthData key t.accessToken
            else pure (.plain "[REDACTED]")
    let rt ← if svTruthy t.refreshToken && opts.encrypt then
               match t.refreshToken with
               | some v => (decryptOAuthData key v).map some
               | none => pure none
             else pure none
    pure { t with accessToken := a, refreshToken := rt })
  let backup : OAuthBackupData :=
    { configs := bConfigs, tokens := bTokens, encrypted := opts.encrypt }
  if opts.encrypt && pwTruthy opts.password then
    match opts.password with
    | some pw => pure (.encryptedBlob pw backup)
    | none => pure (.plainJson backup)
  else
    pure (.plainJson backup)

/-- A plaintext secret `s` occurs in the written backup file outside any
passphrase-encrypted blob. -/
def plainSecretInFile (f : BackupFile) (s : String) : Prop :=
  match f with
  | .plainJson b =>
    (∃ c ∈ b.configs, c.clientSecret = some (.plain s)) ∨
    (∃ t ∈ b.tokens, t.accessToken = .plain s ∨ t.refreshToken = some (.plain s))
  | .encryptedBlob _ _ => False

instance (f : BackupFile) (s : String) : Decidable (plainSecretInFile f s) := by
  unfold plainSecretInFile
  cases f <;> infer_instance

/-! ## Token manager (oauth-security.ts, TokenManagerService)

The token-manager service operates on tokens as returned by the
repository, i.e. with columns already decrypted, so this section models
token values as plain strings.  Fields not read by `getValidToken` or the
refresh path (`scopes`, `issuedAt`, `lastUsed`, timestamps) are omitted. -/

structure TMToken where
  serverId : String
  accessToken : String
  refreshToken : Option String
  tokenType : String
  expiresAt : Option Nat
  refreshCount : Nat
deriving DecidableEq, Repr

/-- The fields of `OAuthConfig` read on the refresh path. -/
structure TMConfig where
  serverId : String
  clientId : String
  clientSecret : Option String
  tokenEndpoint : Option String
deriving DecidableEq, Repr

/-- A successful token-endpoint response (`TokenResponse`, part_005). -/
structure TokenResp where
  accessToken : String
  refreshToken : Option String
  tokenType : String
  expiresIn : Option Nat
deriving DecidableEq, Repr

/-- Source `OAUTH_CONSTANTS.DEFAULT_EXPIRY_BUFFER` (part_005, line 364): 300
seconds. -/
def DEFAULT_EXPIRY_BUFFER : Nat := 300

/-- Source `OAUTH_CONSTANTS.MAX_REFRESH_RETRIES` (part_005, line 365). -/
def MAX_REFRESH_RETRIES : Nat := 3

/-- Source `TokenManagerService.shouldRefreshToken` (oauth-security.ts, lines
769-780): no expiry means never refresh; otherwise refresh when within the
5-minute buffer of expiry. -/
def shouldRefreshToken (t : TMToken) (now : Nat) : Bool :=
  match t.expiresAt with
  | none => false
  | some e => e ≤ now + DEFAULT_EXPIRY_BUFFER * 1000

/-- Source `TokenManagerService.isTokenExpired` (oauth-security.ts, lines
785-791). -/
def isTokenExpired (t : TMToken) (now : Nat) : Bool :=
  match t.expiresAt with
  | none => false
  | some e => e ≤ now

/-- The token record built and saved by
`OAuthFlowService.refreshAccessToken` (part_007, lines 196-230) from a
successful endpoint response: the old refresh token is kept when the
response carries none (JS truthiness, so an empty-string refresh token in
the response also keeps the old one), and `saveToken` writes
`refresh_count` as `token.refreshCount || 0 = 0` because the freshly built
record has no `refreshCount` field (the preceding `incrementRefreshCount`
on the old row is immediately overwritten by the REPLACE). -/
def savedTokenOfResp (serverId oldRefreshToken : String) (resp : TokenResp) (now : Nat) :
    TMToken :=
  { serverId := serverId
    accessToken := resp.accessToken
    refreshToken := some (match resp.refreshToken with
      | some r => if r ≠ "" then r else oldRefreshToken
      | none => oldRefreshToken)
    tokenType := resp.tokenType
    expiresAt := resp.expiresIn.map (fun e => now + e * 1000)
    refreshCount := 0 }

/-- The token endpoint as an oracle: the outcome of the HTTP exchange of
attempt `a` (1-based) of a refresh. -/
def TokenEndpoint := Nat → Except Unit TokenResp

/-- Source `TokenManagerService.performTokenRefresh` (oauth-security.ts, lines
666-705), outcome only: up to `MAX_REFRESH_RETRIES` attempts, each one an
HTTP exchange with the token endpoint; the first success wins, and the
last error is rethrown after the final attempt.  The exponential backoff
delays do not affect the outcome. -/
def refreshAttempts (oracle : TokenEndpoint) : Nat → Except Unit TokenResp
  | 0 => .error ()
  | n + 1 =>
    match oracle (MAX_REFRESH_RETRIES - n) with
    | .ok resp => .ok resp
    | .error e => if n = 0 then .error e else refreshAttempts oracle n

/-- The per-server slice of the store seen by the token manager. -/
structure TMState where
  config : Option TMConfig
  token : Option TMToken
deriving DecidableEq, Repr

/-- Source `TokenManagerService.getValidToken` (oauth-security.ts, lines 569-618)
for a single caller (no concurrent refresh in flight): look up the token;
if it needs refresh, refresh it through
`refreshToken` / `performTokenRefresh` / `refreshAccessToken` — which on
success saves the new token row — and on failure fall back to the old
access token when it is not yet expired, else null.  Missing config or
refresh token also yield null.  The catch around the refresh swallows the
exception, so this path always returns a value. -/
def getValidToken (st : TMState) (now : Nat) (oracle : TokenEndpoint) :
    Option String × TMState :=
  match st.token with
  | none => (none, st)
  | some t =>
    if shouldRefreshToken t now then
      match st.config with
      | none => (none, st)
      | some _ =>
        match t.refreshToken with
        | none => (none, st)
        | some rt =>
          match refreshAttempts oracle MAX_REFRESH_RETRIES with
          | .ok resp =>
            let saved := savedTokenOfResp t.serverId rt resp now
            (some saved.accessToken, { st with token := some saved })
          | .error _ =>
            (if isTokenExpired t now then none else some t.accessToken, st)
    else
      (some t.accessToken, st)

/-! ## Concurrent getAccessToken model (C3)

`getValidToken` under Node's cooperative event loop: tasks (concurrent
`getAccessToken(serverId)` calls for one fixed server) interleave only at
`await` points.  All repository calls are synchronous, so the block from a
task's entry up to — for the refreshing task — installing the refresh
promise into `refreshPromises` (oauth-security.ts, line 646) runs
atomically; joiners check `refreshPromises` in the same initial block
(line 584).  Promises are stored by generation index (one generation per
installed refresh promise); `inFlight` models the `refreshPromises` map
entry for the server. -/

deriving instance DecidableEq for Except

inductive TaskSt where
  /-- Call issued, initial synchronous block not yet run. -/
  | start
  /-- Awaiting the in-flight refresh promise of generation `g`
  (`await existingRefresh`). -/
  | waiting (g : Nat)
  /-- The refreshing task, awaiting the HTTP exchange of attempt `a` for
  generation `g`; `t0` is the token read at entry. -/
  | httpWait (t0 : TMToken) (a g : Nat)
  /-- The refreshing task, awaiting the exponential-backoff timer before
  attempt `a`. -/
  | backoff (t0 : TMToken) (a g : Nat)
  /-- The refresh promise of generation `g` just settled with `r`; the
  refreshing task still has to run its `finally` block (deleting the
  `refreshPromises` entry) and return. -/
  | settled (t0 : TMToken) (r : Except Unit TMToken) (g : Nat)
  /-- Call returned `r`. -/
  | done (r : Option String)
  /-- Call rejected: a joiner's `await existingRefresh` rethrew the refresh
  failure (that await is outside the try of lines 601-611). -/
  | raised
deriving DecidableEq, Repr

/-- Shared mutable state: the store row, the `refreshPromises` entry for
the server (as the generation index of the in-flight promise), the settled
results of all promise generations, and the number of HTTP exchanges
performed with the token endpoint. -/
structure Shared where
  config : Option TMConfig
  token : Option TMToken
  inFlight : Option Nat
  promises : List (Option (Except Unit TMToken))
  httpCount : Nat
deriving DecidableEq, Repr

structure Sys where
  shared : Shared
  tasks : List TaskSt
deriving DecidableEq, Repr

/-- One atomic block of one task (the code between two `await` points of
`getValidToken` and its callees).  `none` means the task has no enabled
step (finished, or awaiting an unsettled promise). -/
def stepTask (now : Nat) (oracle : TokenEndpoint) (sh : Shared) :
    TaskSt → Option (Shared × TaskSt)
  | .start =>
    match sh.token with
    | none => some (sh, .done none)
    | some t =>
      if shouldRefreshToken t now then
        match sh.inFlight with
        | some g => some (sh, .waiting g)
        | none =>
          match sh.config with
          | none => some (sh, .done none)
          | some _ =>
            match t.refreshToken with
            | none => some (sh, .done none)
            | some _ =>
              let g := sh.promises.length
              some ({ sh with
                        inFlight := some g
                        promises := sh.promises ++ [none]
                        httpCount := sh.httpCount + 1 },
                    .httpWait t 1 g)
      else
        some (sh, .done (some t.accessToken))
  | .waiting g =>
    match sh.promises.getD g none with
    | none => none
    | some (.ok tk) => some (sh, .done (some tk.accessToken))
    | some (.error _) => some (sh, .raised)
  | .httpWait t a g =>
    match oracle a with
    | .ok resp =>
      let saved := savedTokenOfResp t.serverId (t.refreshToken.getD "") resp now
      some ({ sh with
                token := some saved
                promises := sh.promises.set g (some (.ok saved)) },
            .settled t (.ok saved) g)
    | .error _ =>
      if a < MAX_REFRESH_RETRIES then
        some (sh, .backoff t (a + 1) g)
      else
        some ({ sh with promises := sh.promises.set g (some (.error ())) },
              .settled t (.error ()) g)
  | .backoff t a g =>
    some ({ sh with httpCount := sh.httpCount + 1 }, .httpWait t a g)
  | .settled t r _ =>
    match r with
    | .ok tk => some ({ sh with inFlight := none }, .done (some tk.accessToken))
    | .error _ =>
      some ({ sh with inFlight := none },
            .done (if isTokenExpired t now then none else some t.accessToken))
  | .done _ => none
  | .raised => none

/-- Scheduler step: run the enabled block of task `i`, if any. -/
def stepAt (now : Nat) (oracle : TokenEndpoint) (s : Sys) (i : Nat) : Sys :=
  match s.tasks.get? i with
  | none => s
  | some ts =>
    match stepTask now oracle s.shared ts with
    | none => s
    | some (sh, ts') => { shared := sh, tasks := s.tasks.set i ts' }

/-- Run a schedule (a list of task indices) from a system state. -/
def run (now : Nat) (oracle : TokenEndpoint) (sched : List Nat) (s : Sys) : Sys :=
  sched.foldl (stepAt now oracle) s

/-- Source `n` concurrent `getAccessToken(serverId)` calls against the store row
`(cfg, tok)`, none of them started yet. -/
def initSys (cfg : Option TMConfig) (tok : Option TMToken) (n : Nat) : Sys :=
  { shared := { config := cfg, token := tok, inFlight := none, promises := [], httpCount := 0 }
    tasks := List.replicate n .start }

/-- A task currently inside the coalesced refresh call
(`TokenManagerService.refreshToken`, lines 638-661): performing HTTP
attempts, backing off, or between promise settlement and the `finally`
cleanup. -/
def isRefresher : TaskSt → Bool
  | .httpWait _ _ _ => true
  | .backoff _ _ _ => true
  | .settled _ _ _ => true
  | _ => false

/-- No task of the system has an enabled step. -/
def isTerminal (now : Nat) (oracle : TokenEndpoint) (s : Sys) : Bool :=
  s.tasks.all (fun ts => (stepTask now oracle s.shared ts).isNone)

/-- Coalescing invariant: the number of tasks inside the refresh call
equals one exactly when the `refreshPromises` entry is occupied, and zero
otherwise. -/
def C3GenInv (s : Sys) : Prop :=
  s.tasks.countP isRefresher = if s.shared.inFlight.isSome then 1 else 0

/-- Shared state before any task has run. -/
def c3sh0 (cfg : TMConfig) (t0 : TMToken) : Shared :=
  { config := some cfg, token := some t0, inFlight := none, promises := [], httpCount := 0 }

/-- Shared state while the single refresh of generation 0 awaits its first
(and, on success, only) HTTP exchange. -/
def c3sh1 (cfg : TMConfig) (t0 : TMToken) : Shared :=
  { config := some cfg, token := some t0, inFlight := some 0, promises := [none]
    httpCount := 1 }

/-- Shared state after the refresh promise settled successfully with the
saved token, before the refresher's `finally` block ran. -/
def c3sh2 (cfg : TMConfig) (saved : TMToken) : Shared :=
  { config := some cfg, token := some saved, inFlight := some 0
    promises := [some (.ok saved)], httpCount := 1 }

/-- Shared state after the refresher deleted its `refreshPromises` entry. -/
def c3sh3 (cfg : TMConfig) (saved : TMToken) : Shared :=
  { config := some cfg, token := some saved, inFlight := none
    promises := [some (.ok saved)], httpCount := 1 }

/-- Phase invariant of a run in which the stored token needs refresh, the
endpoint succeeds on the first exchange and the saved token is outside the
refresh window: the system is (0) untouched, (1) refreshing with the one
refresher (at task index `k`) on its first HTTP exchange, (2) settled with
the refresher's cleanup pending, or (3) finished refreshing — and every
finished caller got the one saved access token. -/
def C3Phase (cfg : TMConfig) (t0 saved : TMToken) (s : Sys) : Prop :=
  (s.shared = c3sh0 cfg t0 ∧
    ∀ j ts, s.tasks.get? j = some ts → ts = .start) ∨
  (s.shared = c3sh1 cfg t0 ∧ ∃ k,
    s.tasks.get? k = some (.httpWait t0 1 0) ∧
    ∀ j ts, s.tasks.get? j = some ts → j ≠ k → (ts = .start ∨ ts = .waiting 0)) ∨
  (s.shared = c3sh2 cfg saved ∧ ∃ k,
    s.tasks.get? k = some (.settled t0 (.ok saved) 0) ∧
    ∀ j ts, s.tasks.get? j = some ts → j ≠ k →
      (ts = .start ∨ ts = .waiting 0 ∨ ts = .done (some saved.accessToken))) ∨
  (s.shared = c3sh3 cfg saved ∧
    ∀ j ts, s.tasks.get? j = some ts →
      (ts = .start ∨ ts = .waiting 0 ∨ ts = .done (some saved.accessToken)))

/-! ## Server manager (server-manager.ts)

The in-memory maps of `ServerManager`: `servers` (id to record, as an
association list) and `clients` (ids holding a live transport; the map
keys suffice for the pool).  `serverNameToIdMap` and `serverStatusMap` are
not read by the modelled invariant and are omitted.  Record fields other
than `name`, `disabled`, `status` are likewise omitted.  Transport
connect / close are asynchronous external calls; their success is supplied
as an oracle bit per operation.  The transient `starting` / `stopping`
statuses held across the awaits are folded into the surrounding operation
(the claim constrains only `running` / `stopped` / `error`). -/

inductive SrvStatus where
  | stopped
  | starting
  | running
  | stopping
  | error
deriving DecidableEq, Repr

structure SrvRec where
  name : String
  disabled : Bool
  status : SrvStatus
deriving DecidableEq, Repr

structure SMState where
  servers : List (String × SrvRec)
  clients : List String
deriving DecidableEq, Repr

def lookupSrv (st : SMState) (id : String) : Option SrvRec :=
  (st.servers.find? (fun p => p.1 == id)).map (·.2)

def setStatus (st : SMState) (id : String) (s : SrvStatus) : SMState :=
  { st with servers := st.servers.map (fun p =>
      if p.1 == id then (p.1, { p.2 with status := s }) else p) }

/-- Source `ServerManager.startServer` (server-manager.ts, lines 212-253): throw
on unknown or disabled server (no mutation); no-op when a transport is
already pooled; otherwise connect — on failure set status `error`, on
success pool the transport and set status `running`. -/
def startServer (id : String) (connectOk : Bool) (st : SMState) : SMState :=
  match lookupSrv st id with
  | none => st
  | some srv =>
    if srv.disabled then st
    else if st.clients.contains id then st
    else if connectOk then
      { (setStatus st id .running) with clients := id :: st.clients }
    else
      setStatus st id .error

/-- Source `ServerManager.stopServer` (server-manager.ts, lines 258-295): unknown
server returns false; with no pooled transport just set status `stopped`;
otherwise close the transport — when `client.close()` throws, the catch
sets status `error` and `clients.delete(id)` is never reached, so the
transport stays in the pool. -/
def stopServer (id : String) (closeOk : Bool) (st : SMState) : SMState :=
  match lookupSrv st id with
  | none => st
  | some _ =>
    if st.clients.contains id then
      if closeOk then
        { (setStatus st id .stopped) with clients := st.clients.erase id }
      else
        setStatus st id .error
    else
      setStatus st id .stopped

/-- Source `ServerManager.removeServer` (server-manager.ts, lines 161-182): stop
first when a transport is pooled, then delete the record (the
`removeServerFromTokens` call touches only the token table, which is not
part of this state).  The pooled transport is only removed by a successful
stop. -/
def removeServer (id : String) (closeOk : Bool) (st : SMState) : SMState :=
  let st1 := if st.clients.contains id then stopServer id closeOk st else st
  match lookupSrv st id with
  | none => st1
  | some _ => { st1 with servers := st1.servers.filter (fun p => p.1 != id) }

/-- Source `ServerManager.clearAllServers` (server-manager.ts, lines 105-120):
stop every pooled server (errors swallowed), then clear every map — the
final state is empty regardless of the stop outcomes. -/
def clearAllServers (_st : SMState) : SMState :=
  { servers := [], clients := [] }

/-- A server-manager operation together with its transport oracle bit. -/
inductive SMOp where
  | start (id : String) (connectOk : Bool)
  | stop (id : String) (closeOk : Bool)
  | remove (id : String) (closeOk : Bool)
  | clearAll
deriving DecidableEq, Repr

def execOp (st : SMState) : SMOp → SMState
  | .start id ok => startServer id ok st
  | .stop id ok => stopServer id ok st
  | .remove id ok => removeServer id ok st
  | .clearAll => clearAllServers st

def execOps (ops : List SMOp) (st : SMState) : SMState :=
  ops.foldl execOp st

/-- Source `ServerManager.loadServersFromDatabase` (server-manager.ts, lines
59-86): every loaded server starts with status `stopped` and an empty
connection pool (auto-start then goes through `startServer`, covered by
the operation sequences). -/
def initSM (l : List (String × String × Bool)) : SMState :=
  { servers := l.map (fun e => (e.1, { name := e.2.1, disabled := e.2.2, status := .stopped }))
    clients := [] }

/-- Auxiliary invariant for the connection pool: the pool holds no
duplicate transports, every server record in status `running` has its
transport pooled exactly once, and every record in status `stopped` has
none.  (Statuses `starting`, `stopping` and `error` are unconstrained:
the error status can retain a stale transport, see the C8 counterexample.) -/
def SMInvMem (st : SMState) : Prop :=
  st.clients.Nodup ∧
  ∀ p ∈ st.servers,
    ((p : String × SrvRec).2.status = .running → st.clients.count p.1 = 1) ∧
    (p.2.status = .stopped → st.clients.count p.1 = 0)

/-! ## Secure random tokens (part_004, generateSecureRandom)

Characters are modelled as `List Char` so that the `.slice(0, length)` of
the source is `List.take`.  `bytes` stands for the `crypto.randomBytes(n)`
buffer: a list of `n` bytes. -/

/-- The base64url alphabet (RFC 4648 section 5). -/
def base64Alphabet : List Char :=
  "ABCDEFGHIJKLMNOPQRSTUVWXYZabcdefghijklmnopqrstuvwxyz0123456789-_".toList

def b64Char (i : Nat) : Char := base64Alphabet.getD i 'A'

/-- Node's `buffer.toString("base64url")`: standard base64 over 3-byte
groups with the URL-safe alphabet and no padding. -/
def base64urlEncode : List Nat → List Char
  | [] => []
  | [b1] => [b64Char (b1 / 4), b64Char (b1 % 4 * 16)]
  | [b1, b2] => [b64Char (b1 / 4), b64Char (b1 % 4 * 16 + b2 / 16), b64Char (b2 % 16 * 4)]
  | b1 :: b2 :: b3 :: rest =>
    b64Char (b1 / 4) :: b64Char (b1 % 4 * 16 + b2 / 16) ::
    b64Char (b2 % 16 * 4 + b3 / 64) :: b64Char (b3 % 64) :: base64urlEncode rest

/-- Source `generateSecureRandom` (part_004, lines 212-214):
`crypto.randomBytes(length).toString("base64url").slice(0, length)`. -/
def generateSecureRandom (length : Nat) (bytes : List Nat) : List Char :=
  (base64urlEncode bytes).take length

/-- Source `OAUTH_CONSTANTS.STATE_LENGTH` (part_005, line 362). -/
def STATE_LENGTH : Nat := 32

/-- Source `OAUTH_CONSTANTS.VERIFIER_LENGTH` (part_005, line 363). -/
def VERIFIER_LENGTH : Nat := 64

/-- The `state` parameter generated by `OAuthFlowService.initiateAuthFlow`
(part_007, line 46). -/
def oauthStateParam (bytes : List Nat) : List Char :=
  generateSecureRandom STATE_LENGTH bytes

/-- The PKCE code verifier generated by `OAuthFlowService.initiateAuthFlow`
(part_007, lines 47-50) on the PKCE path. -/
def pkceVerifier (bytes : List Nat) : List Char :=
  generateSecureRandom VERIFIER_LENGTH bytes

/-! ## Concrete fixtures used by counterexamples and witnesses -/

/-- Global-scope preference row for server A, tool t. -/
def exRowGlobalA : ServerTool :=
  { id := "r1", serverId := "A", toolName := "t", clientId := none, enabled := true
    originalDescription := some "d", customName := none, customDescription := none }

/-- Client-scope preference row for server A, tool t, client c. -/
def exRowClientA : ServerTool :=
  { id := "r2", serverId := "A", toolName := "t", clientId := some "c", enabled := true
    originalDescription := some "d", customName := none, customDescription := none }

/-- Global-scope preference row for server B, tool u. -/
def exRowB : ServerTool :=
  { id := "r3", serverId := "B", toolName := "u", clientId := none, enabled := true
    originalDescription := some "e", customName := none, customDescription := none }

def exToolDB : List ServerTool := [exRowGlobalA, exRowClientA, exRowB]

/-- Store with one OAuth config whose client secret is stored encrypted
under key 0, and no token rows. -/
def exStoreConfigOnly : OAuthStore :=
  { keyFile := some 0
    configs := [{ id := "c1", serverId := "S", clientId := "client"
                  clientSecret := some (.cipher 0 (.plain "s3cret")) }]
    tokens := []
    rotation := { rotationIntervalDays := 90, keyVersion := 1
                  lastRotation := 0, nextRotation := 7776000000 } }

/-- Store with one OAuth token row whose access token is stored encrypted
under key 0. -/
def exStoreOneToken : OAuthStore :=
  { keyFile := some 0
    configs := []
    tokens := [{ id := "t1", serverId := "S"
                 accessToken := .cipher 0 (.plain "AT")
                 refreshToken := some (.cipher 0 (.plain "RT"))
                 idToken := none, tokenType := "Bearer"
                 expiresAt := some 1000000, refreshCount := 2 }]
    rotation := { rotationIntervalDays := 90, keyVersion := 1
                  lastRotation := 0, nextRotation := 7776000000 } }

/-- The `BackupOptions` of `createAutomaticBackup` (token-handler.ts, lines
264-268): tokens included, `encrypt: true`, a fixed output path, and no
password. -/
def exAutoBackupOpts : BackupOptions :=
  { includeTokens := true, encrypt := true, password := none
    outputPath := some "oauth-backups/auto-backup.json" }

/-- Manual backup options with a passphrase. -/
def exManualBackupOpts : BackupOptions :=
  { includeTokens := true, encrypt := true, password := some "pw"
    outputPath := none }

/-- An OAuth config row as the token manager sees it. -/
def exTMConfig : TMConfig :=
  { serverId := "S", clientId := "client", clientSecret := none
    tokenEndpoint := some "https://as.example/token" }

/-- A stored token inside the refresh window: at `now = 1000000` it is
neither expired (`expiresAt = 1200000 > now`) nor outside the 5-minute
buffer (`1200000 ≤ now + 300000`). -/
def exTMTokenFresh : TMToken :=
  { serverId := "S", accessToken := "oldAT", refreshToken := some "RT"
    tokenType := "Bearer", expiresAt := some 1200000, refreshCount := 2 }

/-- A stored token already expired at `now = 1000000`. -/
def exTMTokenExpired : TMToken :=
  { serverId := "S", accessToken := "deadAT", refreshToken := some "RT"
    tokenType := "Bearer", expiresAt := some 900000, refreshCount := 2 }

/-- A token endpoint whose every exchange fails (e.g. `invalid_grant`). -/
def exFailEndpoint : TokenEndpoint := fun _ => .error ()

/-- A token-endpoint response without rotation of the refresh token and
without an expiry (so the refreshed token never re-enters the refresh
window). -/
def exResp : TokenResp :=
  { accessToken := "newAT", refreshToken := none, tokenType := "Bearer"
    expiresIn := none }

/-- A token endpoint that succeeds on every exchange with `exResp`. -/
def exOkEndpoint : TokenEndpoint := fun _ => .ok exResp

/-- One enabled server record. -/
def exSMInit : SMState := initSM [("A", "srvA", false)]

/-- The backup payload that `createAutomaticBackup` writes for
`exStoreConfigOnly`: the decrypted client secret in the clear, inside a
file whose own metadata claims it is encrypted. -/
def exLeakedBackup : OAuthBackupData :=
  { configs := [{ id := "c1", serverId := "S", clientId := "client"
                  clientSecret := some (.plain "s3cret") }]
    tokens := []
    encrypted := true }

/-! ## Theorems -/

/-- Two predicates that agree on the elements of a list find the same
result. -/
theorem find?_ext {α : Type} (p q : α → Bool) :
    ∀ (l : List α), (∀ a ∈ l, p a = q a) → l.find? p = l.find? q := by
  intro l
  induction l with
  | nil => intro _; rfl
  | cons x xs ih =>
    intro h
    have hx : p x = q x := h x (List.mem_cons_self x xs)
    simp only [List.find?]
    rw [hx]
    cases q x with
    | true => rfl
    | false => exact ih (fun a ha => h a (List.mem_cons_of_mem x ha))

/-- Claim C5: for every query (serverId, toolName, clientId),
tool-preference resolution returns the client-specific row if one exists,
otherwise the global (NULL-clientId) row if one exists, otherwise an
implicit default with enabled = true; in particular `isToolEnabled`
returns true whenever no stored row matches.  Stated as agreement of the
source's `getServerTool` / `isToolEnabled` (with the service cache empty)
with the resolution rule written from the spec, over well-formed tables
(no stored empty-string clientId). -/
theorem C5_preference_resolution (db : List ServerTool) (sid tn : String)
    (cid : Option String) (hwf : WfToolDB db) :
    getServerTool db sid tn cid = specResolve db sid tn cid ∧
    isToolEnabled [] db sid tn cid = specToolEnabled db sid tn cid := by
  have hmain : getServerTool db sid tn cid = specResolve db sid tn cid := by
    match cid with
    | none => rfl
    | some c =>
      by_cases hc : c = ""
      · subst hc
        have hnone :
            db.find? (fun r => r.serverId == sid && r.toolName == tn && r.clientId == some "") =
              none := by
          rw [List.find?_eq_none]
          intro r hr
          have := hwf r hr
          simp only [Bool.and_eq_true, beq_iff_eq, not_and]
          intro _ h
          exact this h
        simp [getServerTool, specResolve, jsTruthy, hnone]
      · have hfind :
            db.find? (matchesClientRow sid tn (some c)) =
              db.find? (fun r => r.serverId == sid && r.toolName == tn && r.clientId == some c) := by
          apply find?_ext
          intro r _
          simp only [matchesClientRow]
          cases hrc : r.clientId with
          | none => simp
          | some d => simp
        simp [getServerTool, specResolve, jsTruthy, hc, hfind]
  refine ⟨hmain, ?_⟩
  simp only [isToolEnabled, getToolPreference, specToolEnabled, List.find?]
  rw [hmain]

/-- Witness for C5 at a concrete table and query. -/
theorem C5_preference_resolution_witness :
    WfToolDB exToolDB ∧
    (getServerTool exToolDB "A" "t" (some "c") = specResolve exToolDB "A" "t" (some "c") ∧
      isToolEnabled [] exToolDB "A" "t" (some "c") =
        specToolEnabled exToolDB "A" "t" (some "c")) := by
  refine ⟨?hwf, C5_preference_resolution exToolDB "A" "t" (some "c") ?hwf⟩
  intro r hr
  fin_cases hr <;> decide

/-- Claim C6 counterexample: disabling all tools for the scope
(server A, global) also flips the client-scope row (A, t, client c) of the
same server — the row of the other clientId scope does not stay
unchanged.  This refutes the claim that bulk operations modify only the
rows of the one (serverId, clientId?) scope. -/
theorem C6_counterexample :
    (disableAllTools "A" exToolDB).find? (fun r => r.clientId == some "c") ≠
      exToolDB.find? (fun r => r.clientId == some "c") := by
  decide

/-- Membership in a per-server enabled-flag update is unchanged for rows of
other servers. -/
theorem mem_bulk_update_iff (db : List ServerTool) (sid : String) (b : Bool)
    (r : ServerTool) (hr : r.serverId ≠ sid) :
    r ∈ db.map (fun x => if x.serverId == sid then { x with enabled := b } else x) ↔
      r ∈ db := by
  constructor
  · intro h
    rcases List.mem_map.mp h with ⟨a, ha, hfa⟩
    by_cases hs : a.serverId = sid
    · exfalso
      apply hr
      rw [← hfa]
      simp [hs]
    · rw [if_neg (by simpa using hs)] at hfa
      exact hfa ▸ ha
  · intro h
    refine List.mem_map.mpr ⟨r, h, ?_⟩
    rw [if_neg (by simpa using hr)]

/-- Claim C6 (amended): enableAllTools, disableAllTools and reset are
scoped by serverId only — they affect every preference row of the given
server, the global scope and every clientId scope alike, while rows
belonging to other servers are left unchanged. -/
theorem C6_bulk_ops_server_scoped (db : List ServerTool) (sid : String) :
    (∀ r ∈ enableAllTools sid db, r.serverId = sid → r.enabled = true) ∧
    (∀ r ∈ disableAllTools sid db, r.serverId = sid → r.enabled = false) ∧
    (∀ r : ServerTool, r.serverId ≠ sid →
      ((r ∈ enableAllTools sid db ↔ r ∈ db) ∧ (r ∈ disableAllTools sid db ↔ r ∈ db))) ∧
    (∀ r : ServerTool,
      r ∈ deleteServerToolPreferences sid db ↔ r ∈ db ∧ r.serverId ≠ sid) := by
  refine ⟨?_, ?_, ?_, ?_⟩
  · intro r hrm hrs
    rcases List.mem_map.mp hrm with ⟨a, _, hfa⟩
    by_cases hs : a.serverId = sid
    · rw [← hfa]
      simp [hs]
    · exfalso
      rw [if_neg (by simpa using hs)] at hfa
      exact hs (hfa ▸ hrs)
  · intro r hrm hrs
    rcases List.mem_map.mp hrm with ⟨a, _, hfa⟩
    by_cases hs : a.serverId = sid
    · rw [← hfa]
      simp [hs]
    · exfalso
      rw [if_neg (by simpa using hs)] at hfa
      exact hs (hfa ▸ hrs)
  · intro r hr
    exact ⟨mem_bulk_update_iff db sid true r hr, mem_bulk_update_iff db sid false r hr⟩
  · intro r
    simp [deleteServerToolPreferences, List.mem_filter, ne_eq]

/-- Witness for the amended C6 at a concrete table: the client-scope row of
server A is disabled by the server-wide bulk update, while server B's row
is untouched. -/
theorem C6_bulk_ops_server_scoped_witness :
    ({ exRowClientA with enabled := false }).enabled = false ∧
    (exRowB ∈ enableAllTools "A" exToolDB ↔ exRowB ∈ exToolDB) := by
  refine ⟨?_, ((C6_bulk_ops_server_scoped exToolDB "A").2.2.1 exRowB (by decide)).1⟩
  exact (C6_bulk_ops_server_scoped exToolDB "A").2.1
    { exRowClientA with enabled := false } (by decide) (by decide)

/-- Source `base64urlEncode` distributes over append at 3-byte boundaries. -/
theorem base64urlEncode_append :
    ∀ (xs ys : List Nat), xs.length % 3 = 0 →
      base64urlEncode (xs ++ ys) = base64urlEncode xs ++ base64urlEncode ys
  | [], _, _ => by simp [base64urlEncode]
  | [_], _, h => by simp at h
  | [_, _], _, h => by simp at h
  | b1 :: b2 :: b3 :: rest, ys, h => by
    have hr : rest.length % 3 = 0 := by
      have hl : (b1 :: b2 :: b3 :: rest).length = rest.length + 3 := by simp
      rw [hl] at h
      omega
    have ih := base64urlEncode_append rest ys hr
    simp [base64urlEncode, ih]

/-- Length of the encoding of a byte list whose length is a multiple of 3. -/
theorem base64urlEncode_length_of_mod3 :
    ∀ xs : List Nat, xs.length % 3 = 0 →
      (base64urlEncode xs).length = xs.length / 3 * 4
  | [], _ => by simp [base64urlEncode]
  | [_], h => by simp at h
  | [_, _], h => by simp at h
  | b1 :: b2 :: b3 :: rest, h => by
    have hl : (b1 :: b2 :: b3 :: rest).length = rest.length + 3 := by simp
    have hr : rest.length % 3 = 0 := by
      rw [hl] at h
      omega
    have ih := base64urlEncode_length_of_mod3 rest hr
    simp only [base64urlEncode, List.length_cons, ih, hl]
    omega

/-- Claim C9 counterexample: `generateSecureRandom(32)` does not return the
base64url encoding of its 32 random bytes — the encoding has 43 characters
and `.slice(0, 32)` truncates it. -/
theorem C9_counterexample :
    generateSecureRandom STATE_LENGTH (List.replicate 32 0) ≠
      base64urlEncode (List.replicate 32 0) := by
  decide

/-- Claim C9 (amended): `generateSecureRandom(n)` returns only the first
`n` characters of the base64url encoding of `n` random bytes.  The OAuth
state parameter (n = 32) is therefore the encoding of just the first 24
random bytes, and the PKCE verifier (n = 64) the encoding of just the
first 48. -/
theorem C9_random_token_truncated (bytes bytes' : List Nat)
    (h32 : bytes.length = 32) (h64 : bytes'.length = 64) :
    oauthStateParam bytes = base64urlEncode (bytes.take 24) ∧
    pkceVerifier bytes' = base64urlEncode (bytes'.take 48) := by
  constructor
  · have hsplit : bytes = bytes.take 24 ++ bytes.drop 24 := (List.take_append_drop 24 bytes).symm
    have hlen : (bytes.take 24).length = 24 := by
      rw [List.length_take]
      omega
    have henc : base64urlEncode bytes =
        base64urlEncode (bytes.take 24) ++ base64urlEncode (bytes.drop 24) := by
      conv_lhs => rw [hsplit]
      exact base64urlEncode_append _ _ (by rw [hlen])
    have helen : (base64urlEncode (bytes.take 24)).length = 32 := by
      rw [base64urlEncode_length_of_mod3 _ (by rw [hlen]), hlen]
    show (base64urlEncode bytes).take STATE_LENGTH = _
    rw [henc]
    exact List.take_left' helen
  · have hsplit : bytes' = bytes'.take 48 ++ bytes'.drop 48 :=
      (List.take_append_drop 48 bytes').symm
    have hlen : (bytes'.take 48).length = 48 := by
      rw [List.length_take]
      omega
    have henc : base64urlEncode bytes' =
        base64urlEncode (bytes'.take 48) ++ base64urlEncode (bytes'.drop 48) := by
      conv_lhs => rw [hsplit]
      exact base64urlEncode_append _ _ (by rw [hlen])
    have helen : (base64urlEncode (bytes'.take 48)).length = 64 := by
      rw [base64urlEncode_length_of_mod3 _ (by rw [hlen]), hlen]
    show (base64urlEncode bytes').take VERIFIER_LENGTH = _
    rw [henc]
    exact List.take_left' helen

/-- Witness for the amended C9 at concrete byte buffers. -/
theorem C9_random_token_truncated_witness :
    (List.replicate 32 0).length = 32 ∧ (List.replicate 64 1).length = 64 ∧
    (oauthStateParam (List.replicate 32 0) =
        base64urlEncode ((List.replicate 32 0).take 24) ∧
      pkceVerifier (List.replicate 64 1) =
        base64urlEncode ((List.replicate 64 1).take 48)) :=
  ⟨by decide, by decide,
    C9_random_token_truncated (List.replicate 32 0) (List.replicate 64 1)
      (by decide) (by decide)⟩

/-- Claim C1 (code-bug evidence): `createAutomaticBackup` — that is,
`createBackup` with `includeTokens: true, encrypt: true`, a fixed output
path and no password — run against a store holding one OAuth config with
an encrypted client secret and no token rows, succeeds and writes the
backup JSON to disk WITHOUT any passphrase encryption (the blob is only
encrypted when a password is also supplied), with the client secret in
plaintext and the file's own metadata claiming `encrypted: true`
(AES-256-GCM).  This falsifies the invariant that no plaintext secret is
written to any file outside the encrypted columns or encrypted backup
blobs. -/
theorem C1_automatic_backup_writes_plaintext_secret :
    createBackup 99 exStoreConfigOnly exAutoBackupOpts = .ok (.plainJson exLeakedBackup) ∧
    plainSecretInFile (.plainJson exLeakedBackup) "s3cret" ∧
    exLeakedBackup.encrypted = true := by
  decide

/-- Claim C2 (code-bug evidence): `rotateEncryptionKeys` run on a store
with one encrypted token row leaves the store COMPLETELY unchanged — same
key file, same ciphertexts, same key version.  The repository's
`getAllTokens` already decrypts the token columns, so the rotation loop's
second `decrypt` throws, the catch swallows the error, and nothing is
persisted; moreover the freshly generated key (here 99) is never written
anywhere, and `new EncryptionUtil()` re-reads the same key file.  On a
store with no token rows the version is bumped to 2 and the rotation
timestamps move, yet the key file and every stored ciphertext are still
untouched. -/
theorem C2_rotation_is_broken :
    rotateEncryptionKeys 99 77 1000000 exStoreOneToken = exStoreOneToken ∧
    rotateEncryptionKeys 99 77 1000000 exStoreConfigOnly =
      { exStoreConfigOnly with
        rotation := { rotationIntervalDays := 90, keyVersion := 2
                      lastRotation := 1000000, nextRotation := 1000000 + 7776000000 } } := by
  decide

/-- Claim C7 (code-bug evidence): creating a backup of a dataset that
contains one OAuth token row (with a passphrase supplied) throws instead
of producing a backup: `getAllTokens` returns the tokens already
decrypted and `createBackup` decrypts the access token a second time,
which fails.  The backup/restore round trip is therefore impossible for
any dataset with a stored token. -/
theorem C7_backup_with_tokens_throws :
    createBackup 99 exStoreOneToken exManualBackupOpts = .error () := by
  decide

/-- All `MAX_REFRESH_RETRIES` attempts of a refresh fail when every
exchange with the token endpoint fails. -/
theorem refreshAttempts_fail (oracle : TokenEndpoint)
    (hfail : ∀ a, oracle a = .error ()) :
    ∀ n, refreshAttempts oracle n = .error () := by
  intro n
  induction n with
  | zero => rfl
  | succ m ih =>
    unfold refreshAttempts
    rw [hfail]
    by_cases hm : m = 0
    · simp [hm]
    · simp [hm, ih]

/-- Claim C4 counterexample: a terminally failing refresh (every endpoint
exchange fails, all retries exhausted) leaves the stored token row in
place — `getValidToken` never deletes it, refuting the claim that the row
is deleted. -/
theorem C4_counterexample :
    ((getValidToken { config := some exTMConfig, token := some exTMTokenFresh }
        1000000 exFailEndpoint).2).token ≠ none := by
  decide

/-- Claim C4 (amended): if a token refresh for a server fails terminally,
the stored OAuth token row for that server is NOT deleted — the store is
left exactly as it was. -/
theorem C4_token_row_retained (st : TMState) (now : Nat) (oracle : TokenEndpoint)
    (t : TMToken) (ht : st.token = some t)
    (href : shouldRefreshToken t now = true)
    (hfail : ∀ a, oracle a = .error ()) :
    (getValidToken st now oracle).2 = st := by
  unfold getValidToken
  rw [ht]
  simp only [href, if_true]
  cases st.config with
  | none => rfl
  | some cfg =>
    cases t.refreshToken with
    | none => rfl
    | some rt =>
      rw [refreshAttempts_fail oracle hfail]

/-- Witness for the amended C4 at a concrete store and failing endpoint. -/
theorem C4_token_row_retained_witness :
    (getValidToken { config := some exTMConfig, token := some exTMTokenFresh }
        1000000 exFailEndpoint).2 =
      { config := some exTMConfig, token := some exTMTokenFresh } :=
  C4_token_row_retained _ 1000000 exFailEndpoint exTMTokenFresh rfl (by decide)
    (fun _ => rfl)

/-- Claim C10: when `getAccessToken` triggers a refresh and the refresh
fails, the call does not raise — the catch of lines 601-611 swallows the
failure: with config and refresh token present it returns the old stored
access token if `expiresAt` is still in the future and null once the token
is expired; with config or refresh token missing it returns null. -/
theorem C10_refresh_failure_fallback (st : TMState) (now : Nat)
    (oracle : TokenEndpoint) (t : TMToken) (ht : st.token = some t)
    (href : shouldRefreshToken t now = true)
    (hfail : ∀ a, oracle a = .error ()) :
    (getValidToken st now oracle).1 =
      if st.config.isNone || t.refreshToken.isNone then none
      else if isTokenExpired t now then none
      else some t.accessToken := by
  unfold getValidToken
  rw [ht]
  simp only [href, if_true]
  cases st.config with
  | none => simp
  | some cfg =>
    cases t.refreshToken with
    | none => simp
    | some rt =>
      rw [refreshAttempts_fail oracle hfail]
      simp

/-- Witness for C10: at a concrete store, an unexpired token inside the
refresh window survives a failed refresh as the returned value, and an
expired one yields null. -/
theorem C10_refresh_failure_fallback_witness :
    (getValidToken { config := some exTMConfig, token := some exTMTokenFresh }
        1000000 exFailEndpoint).1 = some "oldAT" ∧
    (getValidToken { config := some exTMConfig, token := some exTMTokenExpired }
        1000000 exFailEndpoint).1 = none := by
  constructor
  · have h := C10_refresh_failure_fallback
      { config := some exTMConfig, token := some exTMTokenFresh } 1000000
      exFailEndpoint exTMTokenFresh rfl (by decide) (fun _ => rfl)
    simpa using h
  · have h := C10_refresh_failure_fallback
      { config := some exTMConfig, token := some exTMTokenExpired } 1000000
      exFailEndpoint exTMTokenExpired rfl (by decide) (fun _ => rfl)
    simpa using h

/-- Claim C8 counterexample: start server A (connect succeeds), then stop
it with `client.close()` throwing.  The catch of `stopServer` sets status
`error` before `clients.delete(id)` runs, so the reachable final state has
status `error` with the transport still in the pool — refuting the claim
that a server in status `stopped` or `error` has no live transport. -/
theorem C8_counterexample :
    (lookupSrv (execOps [.start "A" true, .stop "A" false] exSMInit) "A").map (·.status) =
        some .error ∧
    (execOps [.start "A" true, .stop "A" false] exSMInit).clients.count "A" = 1 := by
  decide

theorem contains_eq_true_iff {l : List String} {a : String} :
    l.contains a = true ↔ a ∈ l := by
  simp

/-- Source `setStatus` preserves pool membership facts: every record of the
updated map comes from a record of the old map with the same key, with the
status replaced by the new one exactly on the targeted server id. -/
theorem mem_setStatus {st : SMState} {id0 : String} {s : SrvStatus}
    {p : String × SrvRec} (hp : p ∈ (setStatus st id0 s).servers) :
    ∃ q ∈ st.servers, q.1 = p.1 ∧
      ((q.1 = id0 ∧ p.2 = { q.2 with status := s }) ∨ (q.1 ≠ id0 ∧ p.2 = q.2)) := by
  rcases List.mem_map.mp hp with ⟨q, hq, hfq⟩
  by_cases hk : q.1 = id0
  · refine ⟨q, hq, ?_, Or.inl ⟨hk, ?_⟩⟩
    · rw [← hfq]
      simp [hk]
    · rw [← hfq]
      simp [hk]
  · refine ⟨q, hq, ?_, Or.inr ⟨hk, ?_⟩⟩
    · rw [← hfq]
      simp [hk]
    · rw [← hfq]
      simp [hk]

/-- Source `startServer` preserves the pool invariant. -/
theorem SMInvMem_startServer (id0 : String) (ok : Bool) (st : SMState)
    (h : SMInvMem st) : SMInvMem (startServer id0 ok st) := by
  obtain ⟨hnd, hmem⟩ := h
  unfold startServer
  cases hl : lookupSrv st id0 with
  | none => exact ⟨hnd, hmem⟩
  | some srv =>
    dsimp only
    by_cases hd : srv.disabled = true
    · rw [if_pos hd]
      exact ⟨hnd, hmem⟩
    · rw [if_neg hd]
      by_cases hc : st.clients.contains id0 = true
      · rw [if_pos hc]
        exact ⟨hnd, hmem⟩
      · have hnm : id0 ∉ st.clients := fun hm =>
          hc (contains_eq_true_iff.mpr hm)
        rw [if_neg hc]
        cases ok with
        | true =>
          rw [if_pos rfl]
          constructor
          · exact List.nodup_cons.mpr ⟨hnm, hnd⟩
          · intro p hp
            rcases mem_setStatus hp with ⟨q, hq, hkeq, hcase⟩
            rcases hcase with ⟨hk0, hps⟩ | ⟨hk0, hps⟩
            · constructor
              · intro _
                show List.count p.1 (id0 :: st.clients) = 1
                rw [← hkeq, hk0, List.count_cons_self,
                  List.count_eq_zero_of_not_mem hnm]
              · intro hstop
                rw [hps] at hstop
                simp at hstop
            · have hne : p.1 ≠ id0 := fun he => hk0 (hkeq.trans he)
              have hcnt : List.count p.1 (id0 :: st.clients) = List.count p.1 st.clients :=
                List.count_cons_of_ne hne st.clients
              constructor
              · intro hrun
                show List.count p.1 (id0 :: st.clients) = 1
                rw [hcnt, ← hkeq]
                exact (hmem q hq).1 (hps ▸ hrun)
              · intro hstop
                show List.count p.1 (id0 :: st.clients) = 0
                rw [hcnt, ← hkeq]
                exact (hmem q hq).2 (hps ▸ hstop)
        | false =>
          rw [if_neg Bool.false_ne_true]
          refine ⟨hnd, ?_⟩
          intro p hp
          rcases mem_setStatus hp with ⟨q, hq, hkeq, hcase⟩
          rcases hcase with ⟨_, hps⟩ | ⟨_, hps⟩
          · constructor
            · intro hrun
              rw [hps] at hrun
              simp at hrun
            · intro hstop
              rw [hps] at hstop
              simp at hstop
          · constructor
            · intro hrun
              show List.count p.1 st.clients = 1
              rw [← hkeq]
              exact (hmem q hq).1 (hps ▸ hrun)
            · intro hstop
              show List.count p.1 st.clients = 0
              rw [← hkeq]
              exact (hmem q hq).2 (hps ▸ hstop)

/-- Source `stopServer` preserves the pool invariant. -/
theorem SMInvMem_stopServer (id0 : String) (ok : Bool) (st : SMState)
    (h : SMInvMem st) : SMInvMem (stopServer id0 ok st) := by
  obtain ⟨hnd, hmem⟩ := h
  unfold stopServer
  cases hl : lookupSrv st id0 with
  | none => exact ⟨hnd, hmem⟩
  | some srv =>
    dsimp only
    by_cases hc : st.clients.contains id0 = true
    · rw [if_pos hc]
      cases ok with
      | true =>
        rw [if_pos rfl]
        constructor
        · exact hnd.erase id0
        · intro p hp
          rcases mem_setStatus hp with ⟨q, hq, hkeq, hcase⟩
          have hle : st.clients.count id0 ≤ 1 :=
            List.nodup_iff_count_le_one.mp hnd id0
          rcases hcase with ⟨hk0, hps⟩ | ⟨hk0, hps⟩
          · constructor
            · intro hrun
              rw [hps] at hrun
              simp at hrun
            · intro _
              show List.count p.1 (st.clients.erase id0) = 0
              rw [← hkeq, hk0, List.count_erase_self]
              omega
          · have hne : p.1 ≠ id0 := fun he => hk0 (hkeq.trans he)
            constructor
            · intro hrun
              show List.count p.1 (st.clients.erase id0) = 1
              rw [List.count_erase_of_ne hne, ← hkeq]
              exact (hmem q hq).1 (hps ▸ hrun)
            · intro hstop
              show List.count p.1 (st.clients.erase id0) = 0
              rw [List.count_erase_of_ne hne, ← hkeq]
              exact (hmem q hq).2 (hps ▸ hstop)
      | false =>
        rw [if_neg Bool.false_ne_true]
        refine ⟨hnd, ?_⟩
        intro p hp
        rcases mem_setStatus hp with ⟨q, hq, hkeq, hcase⟩
        rcases hcase with ⟨_, hps⟩ | ⟨_, hps⟩
        · constructor
          · intro hrun
            rw [hps] at hrun
            simp at hrun
          · intro hstop
            rw [hps] at hstop
            simp at hstop
        · constructor
          · intro hrun
            show List.count p.1 st.clients = 1
            rw [← hkeq]
            exact (hmem q hq).1 (hps ▸ hrun)
          · intro hstop
            show List.count p.1 st.clients = 0
            rw [← hkeq]
            exact (hmem q hq).2 (hps ▸ hstop)
    · have hnm : id0 ∉ st.clients := fun hm => hc (contains_eq_true_iff.mpr hm)
      rw [if_neg hc]
      refine ⟨hnd, ?_⟩
      intro p hp
      rcases mem_setStatus hp with ⟨q, hq, hkeq, hcase⟩
      rcases hcase with ⟨hk0, hps⟩ | ⟨_, hps⟩
      · constructor
        · intro hrun
          rw [hps] at hrun
          simp at hrun
        · intro _
          show List.count p.1 st.clients = 0
          rw [← hkeq, hk0]
          exact List.count_eq_zero_of_not_mem hnm
      · constructor
        · intro hrun
          show List.count p.1 st.clients = 1
          rw [← hkeq]
          exact (hmem q hq).1 (hps ▸ hrun)
        · intro hstop
          show List.count p.1 st.clients = 0
          rw [← hkeq]
          exact (hmem q hq).2 (hps ▸ hstop)

/-- Source `removeServer` preserves the pool invariant. -/
theorem SMInvMem_removeServer (id0 : String) (ok : Bool) (st : SMState)
    (h : SMInvMem st) : SMInvMem (removeServer id0 ok st) := by
  have h1 : SMInvMem (if st.clients.contains id0 = true then stopServer id0 ok st else st) := by
    by_cases hc : st.clients.contains id0 = true
    · rw [if_pos hc]
      exact SMInvMem_stopServer id0 ok st h
    · rw [if_neg hc]
      exact h
  unfold removeServer
  cases lookupSrv st id0 with
  | none => exact h1
  | some srv =>
    obtain ⟨hnd1, hmem1⟩ := h1
    refine ⟨hnd1, ?_⟩
    intro p hp
    exact hmem1 p (List.mem_of_mem_filter hp)

/-- Every server-manager operation preserves the pool invariant. -/
theorem SMInvMem_execOp (st : SMState) (op : SMOp) (h : SMInvMem st) :
    SMInvMem (execOp st op) := by
  cases op with
  | start id ok => exact SMInvMem_startServer id ok st h
  | stop id ok => exact SMInvMem_stopServer id ok st h
  | remove id ok => exact SMInvMem_removeServer id ok st h
  | clearAll =>
    refine ⟨List.nodup_nil, ?_⟩
    intro p hp
    exact absurd hp (List.not_mem_nil p)

theorem SMInvMem_execOps (ops : List SMOp) (st : SMState) (h : SMInvMem st) :
    SMInvMem (execOps ops st) := by
  induction ops generalizing st with
  | nil => exact h
  | cons op rest ih => exact ih (execOp st op) (SMInvMem_execOp st op h)

theorem SMInvMem_initSM (l : List (String × String × Bool)) : SMInvMem (initSM l) := by
  refine ⟨List.nodup_nil, ?_⟩
  intro p hp
  rcases List.mem_map.mp hp with ⟨e, _, hfe⟩
  constructor
  · intro hrun
    rw [← hfe] at hrun
    exact absurd hrun (by simp)
  · intro _
    simp [initSM]

/-- Claim C8 (amended): in every state reachable by any sequence of
start / stop / remove / clearAll operations (including their failure
paths) from a freshly loaded server list, a server whose status is
`running` has exactly one live transport in the connection pool and a
server whose status is `stopped` has none.  A server in status `error`
can, however, retain its stale transport when the error came from a
failed transport close during stop (see the counterexample). -/
theorem C8_pool_invariant (l : List (String × String × Bool)) (ops : List SMOp)
    (id : String) (srv : SrvRec)
    (hlook : lookupSrv (execOps ops (initSM l)) id = some srv) :
    (srv.status = .running → (execOps ops (initSM l)).clients.count id = 1) ∧
    (srv.status = .stopped → (execOps ops (initSM l)).clients.count id = 0) := by
  obtain ⟨_, hmem⟩ := SMInvMem_execOps ops (initSM l) (SMInvMem_initSM l)
  unfold lookupSrv at hlook
  cases hf : (execOps ops (initSM l)).servers.find? (fun p => p.1 == id) with
  | none => rw [hf] at hlook; exact absurd hlook (by simp)
  | some q =>
    rw [hf] at hlook
    have hq : q ∈ (execOps ops (initSM l)).servers := List.mem_of_find?_eq_some hf
    have hkey : q.1 = id := by
      have := List.find?_some hf
      simpa using this
    have hsrv : q.2 = srv := by simpa using hlook
    have := hmem q hq
    rw [hkey, hsrv] at this
    exact this

/-- Witness for the amended C8: after a successful start, server A is
running with its transport pooled exactly once. -/
theorem C8_pool_invariant_witness :
    (execOps [.start "A" true] (initSM [("A", "srvA", false)])).clients.count "A" = 1 :=
  (C8_pool_invariant [("A", "srvA", false)] [.start "A" true] "A"
      { name := "srvA", disabled := false, status := .running } (by decide)).1 rfl

/-- Replacing the element at index `i` changes `countP` by the difference
of the predicate on the old and new element. -/
theorem countP_set_add {α : Type} (l : List α) (i : Nat) (b : α) (p : α → Bool)
    (a : α) (hget : l.get? i = some a) :
    (l.set i b).countP p + (if p a = true then 1 else 0) =
      l.countP p + (if p b = true then 1 else 0) := by
  induction l generalizing i with
  | nil => simp at hget
  | cons x xs ih =>
    cases i with
    | zero =>
      have hax : x = a := by simpa using hget
      subst hax
      simp only [List.set_cons_zero, List.countP_cons]
      omega
    | succ j =>
      have hget' : xs.get? j = some a := by simpa using hget
      have := ih j hget'
      simp only [List.set_cons_succ, List.countP_cons]
      omega

/-- One scheduler step preserves the coalescing invariant. -/
theorem C3GenInv_stepAt (now : Nat) (oracle : TokenEndpoint) (s : Sys) (i : Nat)
    (h : C3GenInv s) : C3GenInv (stepAt now oracle s i) := by
  unfold stepAt
  cases hget : s.tasks.get? i with
  | none => exact h
  | some ts =>
    dsimp only
    cases hstep : stepTask now oracle s.shared ts with
    | none => exact h
    | some pair =>
      obtain ⟨sh', ts'⟩ := pair
      have hcnt := countP_set_add s.tasks i ts' isRefresher ts hget
      show (s.tasks.set i ts').countP isRefresher = if sh'.inFlight.isSome then 1 else 0
      unfold C3GenInv at h
      cases ts with
      | start =>
        simp only [stepTask] at hstep
        cases htok : s.shared.token with
        | none =>
          rw [htok] at hstep
          obtain ⟨rfl, rfl⟩ : s.shared = sh' ∧ TaskSt.done none = ts' := by
            simpa using hstep
          exact Eq.trans (by simp [isRefresher] at hcnt; omega) h
        | some t =>
          rw [htok] at hstep
          dsimp only at hstep
          by_cases hsr : shouldRefreshToken t now = true
          · rw [if_pos hsr] at hstep
            cases hif : s.shared.inFlight with
            | some g =>
              rw [hif] at hstep
              obtain ⟨rfl, rfl⟩ : s.shared = sh' ∧ TaskSt.waiting g = ts' := by
                simpa using hstep
              exact Eq.trans (by simp [isRefresher] at hcnt; omega) h
            | none =>
              rw [hif] at hstep
              dsimp only at hstep
              cases hcfg : s.shared.config with
              | none =>
                rw [hcfg] at hstep
                obtain ⟨rfl, rfl⟩ : s.shared = sh' ∧ TaskSt.done none = ts' := by
                  simpa using hstep
                exact Eq.trans (by simp [isRefresher] at hcnt; omega) h
              | some cfg =>
                rw [hcfg] at hstep
                dsimp only at hstep
                cases hrt : t.refreshToken with
                | none =>
                  rw [hrt] at hstep
                  obtain ⟨rfl, rfl⟩ : s.shared = sh' ∧ TaskSt.done none = ts' := by
                    simpa using hstep
                  exact Eq.trans (by simp [isRefresher] at hcnt; omega) h
                | some rt =>
                  rw [hrt] at hstep
                  obtain ⟨rfl, rfl⟩ :
                      ({ config := some cfg, token := some t
                         inFlight := some s.shared.promises.length
                         promises := s.shared.promises ++ [none]
                         httpCount := s.shared.httpCount + 1 } : Shared) = sh' ∧
                        TaskSt.httpWait t 1 s.shared.promises.length = ts' := by
                    simpa using hstep
                  change _ = 1
                  have h0 : s.tasks.countP isRefresher = 0 := by
                    rw [hif] at h
                    simpa using h
                  simp [isRefresher] at hcnt
                  omega
          · rw [if_neg hsr] at hstep
            obtain ⟨rfl, rfl⟩ : s.shared = sh' ∧ TaskSt.done (some t.accessToken) = ts' := by
              simpa using hstep
            exact Eq.trans (by simp [isRefresher] at hcnt; omega) h
      | waiting g =>
        simp only [stepTask] at hstep
        cases hpg : s.shared.promises.getD g none with
        | none =>
          rw [hpg] at hstep
          exact Option.noConfusion hstep
        | some r =>
          rw [hpg] at hstep
          cases r with
          | ok tk =>
            obtain ⟨rfl, rfl⟩ : s.shared = sh' ∧ TaskSt.done (some tk.accessToken) = ts' := by
              simpa using hstep
            exact Eq.trans (by simp [isRefresher] at hcnt; omega) h
          | error e =>
            obtain ⟨rfl, rfl⟩ : s.shared = sh' ∧ TaskSt.raised = ts' := by
              simpa using hstep
            exact Eq.trans (by simp [isRefresher] at hcnt; omega) h
      | httpWait t a g =>
        simp only [stepTask] at hstep
        cases hor : oracle a with
        | ok resp =>
          rw [hor] at hstep
          obtain ⟨rfl, rfl⟩ := by simpa using hstep
          exact Eq.trans (by simp [isRefresher] at hcnt; omega) h
        | error e =>
          rw [hor] at hstep
          dsimp only at hstep
          by_cases ha : a < MAX_REFRESH_RETRIES
          · rw [if_pos ha] at hstep
            obtain ⟨rfl, rfl⟩ : s.shared = sh' ∧ TaskSt.backoff t (a + 1) g = ts' := by
              simpa using hstep
            exact Eq.trans (by simp [isRefresher] at hcnt; omega) h
          · rw [if_neg ha] at hstep
            obtain ⟨rfl, rfl⟩ := by simpa using hstep
            exact Eq.trans (by simp [isRefresher] at hcnt; omega) h
      | backoff t a g =>
        obtain ⟨rfl, rfl⟩ :
            ({ s.shared with httpCount := s.shared.httpCount + 1 } : Shared) = sh' ∧
              TaskSt.httpWait t a g = ts' := by simpa [stepTask] using hstep
        exact Eq.trans (by simp [isRefresher] at hcnt; omega) h
      | settled t r g =>
        cases r with
        | ok tk =>
          simp only [stepTask] at hstep
          obtain ⟨rfl, rfl⟩ :
              ({ s.shared with inFlight := none } : Shared) = sh' ∧
                TaskSt.done (some tk.accessToken) = ts' := by simpa using hstep
          change _ = 0
          simp [isRefresher] at hcnt
          cases hif : s.shared.inFlight with
          | none =>
            have h0 : s.tasks.countP isRefresher = 0 := by
              rw [hif] at h
              simpa using h
            omega
          | some g0 =>
            have h1 : s.tasks.countP isRefresher = 1 := by
              rw [hif] at h
              simpa using h
            omega
        | error e =>
          simp only [stepTask] at hstep
          obtain ⟨rfl, rfl⟩ :
              ({ s.shared with inFlight := none } : Shared) = sh' ∧
                TaskSt.done (if isTokenExpired t now then none else some t.accessToken) = ts' := by
            simpa using hstep
          change _ = 0
          simp [isRefresher] at hcnt
          cases hif : s.shared.inFlight with
          | none =>
            have h0 : s.tasks.countP isRefresher = 0 := by
              rw [hif] at h
              simpa using h
            omega
          | some g0 =>
            have h1 : s.tasks.countP isRefresher = 1 := by
              rw [hif] at h
              simpa using h
            omega
      | done r => simp [stepTask] at hstep
      | raised => simp [stepTask] at hstep

/-- The coalescing invariant holds along every schedule. -/
theorem C3GenInv_run (now : Nat) (oracle : TokenEndpoint) (sched : List Nat)
    (s : Sys) (h : C3GenInv s) : C3GenInv (run now oracle sched s) := by
  induction sched generalizing s with
  | nil => exact h
  | cons i rest ih => exact ih (stepAt now oracle s i) (C3GenInv_stepAt now oracle s i h)

/-- The coalescing invariant holds initially. -/
theorem C3GenInv_initSys (cfg : Option TMConfig) (tok : Option TMToken) (n : Nat) :
    C3GenInv (initSys cfg tok n) := by
  unfold C3GenInv initSys
  simp only [Option.isSome_none, Bool.false_eq_true, if_false]
  exact List.countP_eq_zero.mpr (fun a ha => by
    rw [List.eq_of_mem_replicate ha]
    simp [isRefresher])

/-- The step of a caller's first block in the untouched state: it becomes
the refresher, fires the one HTTP exchange and installs the promise. -/
theorem stepTask_c3sh0_start (now : Nat) (oracle : TokenEndpoint) (cfg : TMConfig)
    (t0 : TMToken) (rt : String) (hrt : t0.refreshToken = some rt)
    (hsr : shouldRefreshToken t0 now = true) :
    stepTask now oracle (c3sh0 cfg t0) .start =
      some (c3sh1 cfg t0, .httpWait t0 1 0) := by
  simp [stepTask, c3sh0, c3sh1, hsr, hrt]

/-- A caller arriving while the refresh is in flight joins it. -/
theorem stepTask_c3sh1_start (now : Nat) (oracle : TokenEndpoint) (cfg : TMConfig)
    (t0 : TMToken) (hsr : shouldRefreshToken t0 now = true) :
    stepTask now oracle (c3sh1 cfg t0) .start = some (c3sh1 cfg t0, .waiting 0) := by
  simp [stepTask, c3sh1, hsr]

/-- A joiner of the unsettled promise has no enabled step. -/
theorem stepTask_c3sh1_waiting (now : Nat) (oracle : TokenEndpoint) (cfg : TMConfig)
    (t0 : TMToken) :
    stepTask now oracle (c3sh1 cfg t0) (.waiting 0) = none := by
  simp [stepTask, c3sh1]

/-- The refresher's HTTP exchange succeeds: the token row is saved and the
promise settles. -/
theorem stepTask_c3sh1_http (now : Nat) (oracle : TokenEndpoint) (cfg : TMConfig)
    (t0 : TMToken) (rt : String) (resp : TokenResp)
    (hrt : t0.refreshToken = some rt) (hok : oracle 1 = .ok resp) :
    stepTask now oracle (c3sh1 cfg t0) (.httpWait t0 1 0) =
      some (c3sh2 cfg (savedTokenOfResp t0.serverId rt resp now),
        .settled t0 (.ok (savedTokenOfResp t0.serverId rt resp now)) 0) := by
  simp [stepTask, c3sh1, c3sh2, hok, hrt]

/-- After the save, a late caller reads the fresh token and returns it
without refreshing. -/
theorem stepTask_c3sh2_start (now : Nat) (oracle : TokenEndpoint) (cfg : TMConfig)
    (t0 saved : TMToken) (hns : shouldRefreshToken saved now = false) :
    stepTask now oracle (c3sh2 cfg saved) .start =
      some (c3sh2 cfg saved, .done (some saved.accessToken)) := by
  simp [stepTask, c3sh2, hns]

/-- A joiner of the settled promise returns its token. -/
theorem stepTask_c3sh2_waiting (now : Nat) (oracle : TokenEndpoint) (cfg : TMConfig)
    (saved : TMToken) :
    stepTask now oracle (c3sh2 cfg saved) (.waiting 0) =
      some (c3sh2 cfg saved, .done (some saved.accessToken)) := by
  simp [stepTask, c3sh2]

/-- The refresher's cleanup: delete the `refreshPromises` entry and return
the saved access token. -/
theorem stepTask_c3sh2_settled (now : Nat) (oracle : TokenEndpoint) (cfg : TMConfig)
    (t0 saved : TMToken) :
    stepTask now oracle (c3sh2 cfg saved) (.settled t0 (.ok saved) 0) =
      some (c3sh3 cfg saved, .done (some saved.accessToken)) := by
  simp [stepTask, c3sh2, c3sh3]

/-- Like `stepTask_c3sh2_start`, after the refresher's cleanup. -/
theorem stepTask_c3sh3_start (now : Nat) (oracle : TokenEndpoint) (cfg : TMConfig)
    (saved : TMToken) (hns : shouldRefreshToken saved now = false) :
    stepTask now oracle (c3sh3 cfg saved) .start =
      some (c3sh3 cfg saved, .done (some saved.accessToken)) := by
  simp [stepTask, c3sh3, hns]

/-- Like `stepTask_c3sh2_waiting`, after the refresher's cleanup. -/
theorem stepTask_c3sh3_waiting (now : Nat) (oracle : TokenEndpoint) (cfg : TMConfig)
    (saved : TMToken) :
    stepTask now oracle (c3sh3 cfg saved) (.waiting 0) =
      some (c3sh3 cfg saved, .done (some saved.accessToken)) := by
  simp [stepTask, c3sh3]

/-- One scheduler step preserves the phase invariant of a successful
coalesced refresh. -/
theorem C3Phase_stepAt (now : Nat) (oracle : TokenEndpoint) (cfg : TMConfig)
    (t0 saved : TMToken) (rt : String) (resp : TokenResp)
    (hrt : t0.refreshToken = some rt)
    (hsr : shouldRefreshToken t0 now = true)
    (hok : oracle 1 = .ok resp)
    (hsaved : saved = savedTokenOfResp t0.serverId rt resp now)
    (hns : shouldRefreshToken saved now = false)
    (s : Sys) (i : Nat) (h : C3Phase cfg t0 saved s) :
    C3Phase cfg t0 saved (stepAt now oracle s i) := by
  subst hsaved
  unfold stepAt
  cases hget : s.tasks.get? i with
  | none => exact h
  | some ts =>
    dsimp only
    cases hstep : stepTask now oracle s.shared ts with
    | none => exact h
    | some pair =>
      obtain ⟨sh', ts'⟩ := pair
      have hlt : i < s.tasks.length := (List.get?_eq_some.mp hget).1
      rcases h with ⟨hsh, hall⟩ | ⟨hsh, k, hk, hall⟩ | ⟨hsh, k, hk, hall⟩ | ⟨hsh, hall⟩
      · -- Phase 0: the stepped task installs the refresh.
        have hts : ts = .start := hall i ts hget
        subst hts
        rw [hsh, stepTask_c3sh0_start now oracle cfg t0 rt hrt hsr] at hstep
        obtain ⟨rfl, rfl⟩ : c3sh1 cfg t0 = sh' ∧ TaskSt.httpWait t0 1 0 = ts' := by
          simpa using hstep
        refine Or.inr (Or.inl ⟨rfl, i, ?_, ?_⟩)
        · exact List.get?_set_eq_of_lt _ hlt
        · intro j ts'' hj hji
          rw [List.get?_set_ne _ s.tasks (Ne.symm hji)] at hj
          exact Or.inl (hall j ts'' hj)
      · -- Phase 1
        by_cases hik : i = k
        · subst hik
          have hts : ts = .httpWait t0 1 0 := by
            rw [hget] at hk
            exact Option.some.inj hk
          subst hts
          rw [hsh, stepTask_c3sh1_http now oracle cfg t0 rt resp hrt hok] at hstep
          obtain ⟨rfl, rfl⟩ :
              c3sh2 cfg (savedTokenOfResp t0.serverId rt resp now) = sh' ∧
                TaskSt.settled t0 (.ok (savedTokenOfResp t0.serverId rt resp now)) 0 = ts' := by
            simpa using hstep
          refine Or.inr (Or.inr (Or.inl ⟨rfl, i, ?_, ?_⟩))
          · exact List.get?_set_eq_of_lt _ hlt
          · intro j ts'' hj hji
            rw [List.get?_set_ne _ s.tasks (Ne.symm hji)] at hj
            rcases hall j ts'' hj hji with h1 | h1
            · exact Or.inl h1
            · exact Or.inr (Or.inl h1)
        · rcases hall i ts hget hik with hts | hts
          · subst hts
            rw [hsh, stepTask_c3sh1_start now oracle cfg t0 hsr] at hstep
            obtain ⟨rfl, rfl⟩ : c3sh1 cfg t0 = sh' ∧ TaskSt.waiting 0 = ts' := by
              simpa using hstep
            refine Or.inr (Or.inl ⟨rfl, k, ?_, ?_⟩)
            · rw [List.get?_set_ne _ s.tasks hik]
              exact hk
            · intro j ts'' hj hjk
              by_cases hji : j = i
              · subst hji
                rw [List.get?_set_eq_of_lt _ hlt] at hj
                exact Or.inr (Option.some.inj hj).symm
              · rw [List.get?_set_ne _ s.tasks (Ne.symm hji)] at hj
                exact hall j ts'' hj hjk
          · subst hts
            rw [hsh, stepTask_c3sh1_waiting now oracle cfg t0] at hstep
            exact Option.noConfusion hstep
      · -- Phase 2
        by_cases hik : i = k
        · subst hik
          have hts : ts = .settled t0 (.ok (savedTokenOfResp t0.serverId rt resp now)) 0 := by
            rw [hget] at hk
            exact Option.some.inj hk
          subst hts
          rw [hsh, stepTask_c3sh2_settled now oracle cfg t0
            (savedTokenOfResp t0.serverId rt resp now)] at hstep
          obtain ⟨rfl, rfl⟩ :
              c3sh3 cfg (savedTokenOfResp t0.serverId rt resp now) = sh' ∧
                TaskSt.done (some (savedTokenOfResp t0.serverId rt resp now).accessToken) = ts' := by
            simpa using hstep
          refine Or.inr (Or.inr (Or.inr ⟨rfl, ?_⟩))
          intro j ts'' hj
          by_cases hji : j = i
          · subst hji
            rw [List.get?_set_eq_of_lt _ hlt] at hj
            exact Or.inr (Or.inr (Option.some.inj hj).symm)
          · rw [List.get?_set_ne _ s.tasks (Ne.symm hji)] at hj
            exact hall j ts'' hj hji
        · rcases hall i ts hget hik with hts | hts | hts
          · subst hts
            rw [hsh, stepTask_c3sh2_start now oracle cfg t0
              (savedTokenOfResp t0.serverId rt resp now) hns] at hstep
            obtain ⟨rfl, rfl⟩ :
                c3sh2 cfg (savedTokenOfResp t0.serverId rt resp now) = sh' ∧
                  TaskSt.done (some (savedTokenOfResp t0.serverId rt resp now).accessToken) = ts' := by
              simpa using hstep
            refine Or.inr (Or.inr (Or.inl ⟨rfl, k, ?_, ?_⟩))
            · rw [List.get?_set_ne _ s.tasks hik]
              exact hk
            · intro j ts'' hj hjk
              by_cases hji : j = i
              · subst hji
                rw [List.get?_set_eq_of_lt _ hlt] at hj
                exact Or.inr (Or.inr (Option.some.inj hj).symm)
              · rw [List.get?_set_ne _ s.tasks (Ne.symm hji)] at hj
                exact hall j ts'' hj hjk
          · subst hts
            rw [hsh, stepTask_c3sh2_waiting now oracle cfg
              (savedTokenOfResp t0.serverId rt resp now)] at hstep
            obtain ⟨rfl, rfl⟩ :
                c3sh2 cfg (savedTokenOfResp t0.serverId rt resp now) = sh' ∧
                  TaskSt.done (some (savedTokenOfResp t0.serverId rt resp now).accessToken) = ts' := by
              simpa using hstep
            refine Or.inr (Or.inr (Or.inl ⟨rfl, k, ?_, ?_⟩))
            · rw [List.get?_set_ne _ s.tasks hik]
              exact hk
            · intro j ts'' hj hjk
              by_cases hji : j = i
              · subst hji
                rw [List.get?_set_eq_of_lt _ hlt] at hj
                exact Or.inr (Or.inr (Option.some.inj hj).symm)
              · rw [List.get?_set_ne _ s.tasks (Ne.symm hji)] at hj
                exact hall j ts'' hj hjk
          · subst hts
            simp [stepTask] at hstep
      · -- Phase 3
        rcases hall i ts hget with hts | hts | hts
        · subst hts
          rw [hsh, stepTask_c3sh3_start now oracle cfg
            (savedTokenOfResp t0.serverId rt resp now) hns] at hstep
          obtain ⟨rfl, rfl⟩ :
              c3sh3 cfg (savedTokenOfResp t0.serverId rt resp now) = sh' ∧
                TaskSt.done (some (savedTokenOfResp t0.serverId rt resp now).accessToken) = ts' := by
            simpa using hstep
          refine Or.inr (Or.inr (Or.inr ⟨rfl, ?_⟩))
          intro j ts'' hj
          by_cases hji : j = i
          · subst hji
            rw [List.get?_set_eq_of_lt _ hlt] at hj
            exact Or.inr (Or.inr (Option.some.inj hj).symm)
          · rw [List.get?_set_ne _ s.tasks (Ne.symm hji)] at hj
            exact hall j ts'' hj
        · subst hts
          rw [hsh, stepTask_c3sh3_waiting now oracle cfg
            (savedTokenOfResp t0.serverId rt resp now)] at hstep
          obtain ⟨rfl, rfl⟩ :
              c3sh3 cfg (savedTokenOfResp t0.serverId rt resp now) = sh' ∧
                TaskSt.done (some (savedTokenOfResp t0.serverId rt resp now).accessToken) = ts' := by
            simpa using hstep
          refine Or.inr (Or.inr (Or.inr ⟨rfl, ?_⟩))
          intro j ts'' hj
          by_cases hji : j = i
          · subst hji
            rw [List.get?_set_eq_of_lt _ hlt] at hj
            exact Or.inr (Or.inr (Option.some.inj hj).symm)
          · rw [List.get?_set_ne _ s.tasks (Ne.symm hji)] at hj
            exact hall j ts'' hj
        · subst hts
          simp [stepTask] at hstep

theorem stepAt_tasks_length (now : Nat) (oracle : TokenEndpoint) (s : Sys) (i : Nat) :
    (stepAt now oracle s i).tasks.length = s.tasks.length := by
  unfold stepAt
  cases s.tasks.get? i with
  | none => rfl
  | some ts =>
    dsimp only
    cases stepTask now oracle s.shared ts with
    | none => rfl
    | some pair => simp

theorem run_tasks_length (now : Nat) (oracle : TokenEndpoint) (sched : List Nat)
    (s : Sys) : (run now oracle sched s).tasks.length = s.tasks.length := by
  induction sched generalizing s with
  | nil => rfl
  | cons i rest ih =>
    exact (ih (stepAt now oracle s i)).trans (stepAt_tasks_length now oracle s i)

theorem C3Phase_run (now : Nat) (oracle : TokenEndpoint) (cfg : TMConfig)
    (t0 saved : TMToken) (rt : String) (resp : TokenResp)
    (hrt : t0.refreshToken = some rt)
    (hsr : shouldRefreshToken t0 now = true)
    (hok : oracle 1 = .ok resp)
    (hsaved : saved = savedTokenOfResp t0.serverId rt resp now)
    (hns : shouldRefreshToken saved now = false)
    (sched : List Nat) (s : Sys) (h : C3Phase cfg t0 saved s) :
    C3Phase cfg t0 saved (run now oracle sched s) := by
  induction sched generalizing s with
  | nil => exact h
  | cons i rest ih =>
    exact ih (stepAt now oracle s i)
      (C3Phase_stepAt now oracle cfg t0 saved rt resp hrt hsr hok hsaved hns s i h)

theorem C3Phase_initSys (cfg : TMConfig) (t0 saved : TMToken) (n : Nat) :
    C3Phase cfg t0 saved (initSys (some cfg) (some t0) n) := by
  refine Or.inl ⟨rfl, ?_⟩
  intro j ts hj
  exact List.eq_of_mem_replicate (List.get?_mem hj)

/-- Claim C3: for every set of concurrent getAccessToken(serverId) calls
for one serverId issued while the stored token needs refresh, under the
cooperative event-loop semantics of `stepTask`:
(1) in every reachable state, at most one refresh is in flight — at most
one caller is ever inside the coalesced `refreshToken` call, for any
endpoint behaviour and any schedule; and
(2) when the token endpoint answers the first exchange successfully with a
token that is outside the refresh window, every complete (terminal)
schedule performs EXACTLY ONE HTTP exchange with the token endpoint
regardless of the number of callers, and every caller returns that single
refresh's access token. -/
theorem C3_refresh_coalescing :
    (∀ (now : Nat) (oracle : TokenEndpoint) (cfg : Option TMConfig)
        (tok : Option TMToken) (n : Nat) (sched : List Nat),
      (run now oracle sched (initSys cfg tok n)).tasks.countP isRefresher ≤ 1) ∧
    (∀ (now : Nat) (oracle : TokenEndpoint) (cfg : TMConfig) (t0 : TMToken)
        (rt : String) (resp : TokenResp) (n : Nat) (sched : List Nat),
      t0.refreshToken = some rt →
      shouldRefreshToken t0 now = true →
      oracle 1 = .ok resp →
      shouldRefreshToken (savedTokenOfResp t0.serverId rt resp now) now = false →
      1 ≤ n →
      isTerminal now oracle (run now oracle sched (initSys (some cfg) (some t0) n)) = true →
      (run now oracle sched (initSys (some cfg) (some t0) n)).shared.httpCount = 1 ∧
      ∀ ts ∈ (run now oracle sched (initSys (some cfg) (some t0) n)).tasks,
        ts = .done (some resp.accessToken)) := by
  constructor
  · intro now oracle cfg tok n sched
    have h := C3GenInv_run now oracle sched (initSys cfg tok n)
      (C3GenInv_initSys cfg tok n)
    unfold C3GenInv at h
    rw [h]
    split
    · exact Nat.le_refl 1
    · exact Nat.zero_le 1
  · intro now oracle cfg t0 rt resp n sched hrt hsr hok hns hn hterm
    have hph := C3Phase_run now oracle cfg t0
      (savedTokenOfResp t0.serverId rt resp now) rt resp hrt hsr hok rfl hns sched
      (initSys (some cfg) (some t0) n)
      (C3Phase_initSys cfg t0 (savedTokenOfResp t0.serverId rt resp now) n)
    have hlen : (run now oracle sched (initSys (some cfg) (some t0) n)).tasks.length = n := by
      rw [run_tasks_length]
      simp [initSys]
    have hsn : ∀ ts ∈ (run now oracle sched (initSys (some cfg) (some t0) n)).tasks,
        stepTask now oracle
          (run now oracle sched (initSys (some cfg) (some t0) n)).shared ts = none := by
      intro ts hm
      have := List.all_eq_true.mp hterm ts hm
      exact Option.isNone_iff_eq_none.mp (by simpa using this)
    rcases hph with ⟨hsh, hall⟩ | ⟨hsh, k, hk, hall⟩ | ⟨hsh, k, hk, hall⟩ | ⟨hsh, hall⟩
    · exfalso
      obtain ⟨ts0, hmem0⟩ :
          ∃ a, a ∈ (run now oracle sched (initSys (some cfg) (some t0) n)).tasks := by
        cases hF : (run now oracle sched (initSys (some cfg) (some t0) n)).tasks with
        | nil => rw [hF] at hlen; simp at hlen; omega
        | cons a l => exact ⟨a, List.mem_cons_self a l⟩
      obtain ⟨j, hj⟩ := List.mem_iff_get?.mp hmem0
      have hts := hall j ts0 hj
      subst hts
      have hs := hsn .start hmem0
      rw [hsh, stepTask_c3sh0_start now oracle cfg t0 rt hrt hsr] at hs
      exact Option.noConfusion hs
    · exfalso
      have hmemk := List.get?_mem hk
      have hs := hsn _ hmemk
      rw [hsh, stepTask_c3sh1_http now oracle cfg t0 rt resp hrt hok] at hs
      exact Option.noConfusion hs
    · exfalso
      have hmemk := List.get?_mem hk
      have hs := hsn _ hmemk
      rw [hsh, stepTask_c3sh2_settled now oracle cfg t0
        (savedTokenOfResp t0.serverId rt resp now)] at hs
      exact Option.noConfusion hs
    · constructor
      · rw [hsh]
        rfl
      · intro ts hm
        obtain ⟨j, hj⟩ := List.mem_iff_get?.mp hm
        rcases hall j ts hj with hts | hts | hts
        · exfalso
          have hs := hsn ts hm
          rw [hts, hsh, stepTask_c3sh3_start now oracle cfg
            (savedTokenOfResp t0.serverId rt resp now) hns] at hs
          exact Option.noConfusion hs
        · exfalso
          have hs := hsn ts hm
          rw [hts, hsh, stepTask_c3sh3_waiting now oracle cfg
            (savedTokenOfResp t0.serverId rt resp now)] at hs
          exact Option.noConfusion hs
        · exact hts

/-- Witness for C3: three concurrent callers against a token inside the
refresh window, a successful endpoint, and a concrete complete schedule —
one HTTP exchange, all three callers return the refreshed token. -/
theorem C3_refresh_coalescing_witness :
    (run 1000000 exOkEndpoint [0] (initSys (some exTMConfig) (some exTMTokenFresh) 2)).tasks.countP
        isRefresher ≤ 1 ∧
    ((run 1000000 exOkEndpoint [0, 1, 0, 2, 0, 1]
        (initSys (some exTMConfig) (some exTMTokenFresh) 3)).shared.httpCount = 1 ∧
      ∀ ts ∈ (run 1000000 exOkEndpoint [0, 1, 0, 2, 0, 1]
          (initSys (some exTMConfig) (some exTMTokenFresh) 3)).tasks,
        ts = .done (some exResp.accessToken)) := by
  constructor
  · exact C3_refresh_coalescing.1 1000000 exOkEndpoint (some exTMConfig)
      (some exTMTokenFresh) 2 [0]
  · exact C3_refresh_coalescing.2 1000000 exOkEndpoint exTMConfig exTMTokenFresh
      "RT" exResp 3 [0, 1, 0, 2, 0, 1] rfl (by decide) rfl (by decide) (by decide)
      (by decide)

end MCPRouter
